import Mathlib

/-!
Shallow embedding of the donuts.node HTTP pipeline core:
the pipeline (`src/http/http-pipeline.ts`), the node transport request
handler and certificate extractor (`src/http/request-handlers/node.ts`),
and the per-site authentication coordinator response handler
(`src/unnamed/part_000`).  Machine strings are Lean `String`s, JS arrays
are Lean `List`s, `undefined`-able values are `Option`s, and thrown JS
errors are the `Except` error channel.
-/

namespace DonutsHttp

/-- `IHttpHeader` from `donut.node/http`: `{name, value}`. -/
structure HttpHeader where
  name : String
  value : String
deriving DecidableEq, Repr

/-- Opaque JS payload carried in a request body: a `Buffer`, a string, or
any other (structured) value.  The transport only dispatches on which of
the three shapes it is. -/
inductive JsValue
  | buf (bytes : List Nat)
  | str (s : String)
  | obj
deriving DecidableEq, Repr

/-- Client certificate variants from `donut.node/cert` as dispatched on by
the transport handler: only the `type` tag and presence of optional fields
matter to the control flow under study. -/
structure ClientCert where
  certType : String
deriving DecidableEq, Repr

/-- `IHttpRequest`: `method`/`url` are mandatory, the rest optional. -/
structure HttpRequest where
  method : String
  url : String
  headers : Option (List HttpHeader)
  body : Option JsValue
  sslVersion : Option String
  clientCert : Option ClientCert
deriving DecidableEq, Repr

/-- `IHttpResponse`. `data` is the decoded payload projection of `body`. -/
structure HttpResponse where
  httpVersion : String
  statusCode : Nat
  statusMessage : String
  headers : List HttpHeader
  body : List Nat
  data : Option JsValue
deriving DecidableEq, Repr

/-- A thrown JS error: either an `Error` with a message (as thrown by the
pipeline), or the `TypeError` raised by accessing a member of `undefined`. -/
inductive JsError
  | jsError (message : String)
  | typeError
deriving DecidableEq, Repr

/-! ## URL parsing (model of node's `url.parse`)

Only the `host` and `protocol` projections are used by the code under
study.  `protocol` is the prefix of the URL up to and including the first
colon; `host` is what stands between the `://` separator and the next
`/`, `?` or `#`. -/

/-- Characters of the URL after the first `://` separator. -/
def afterScheme : List Char → List Char
  | [] => []
  | ':' :: '/' :: '/' :: rest => rest
  | _ :: rest => afterScheme rest

/-- The host portion of a URL string (model of `url.parse(u).host`). -/
def urlHost (u : String) : String :=
  String.mk ((afterScheme u.data).takeWhile
    (fun c => c ≠ '/' ∧ c ≠ '?' ∧ c ≠ '#'))

/-- Characters of the URL up to and including the first colon, if any. -/
def protocolChars : List Char → Option (List Char)
  | [] => none
  | ':' :: _ => some [':']
  | c :: rest => (protocolChars rest).map (fun p => c :: p)

/-- The protocol of a URL string (model of `url.parse(u).protocol`). -/
def urlProtocol (u : String) : Option String :=
  (protocolChars u.data).map String.mk

/-! ## Pipeline: template merge (`HttpPipeline.requestAsync`, lines 48-61)

The source builds the effective header list as

```
const headers = [];
if (this.requestTemplate.headers) headers.push(...this.requestTemplate.headers);
if (request.headers) headers.push(...headers);
request = Object.assign(Object.create(null), this.requestTemplate, request);
request.headers = headers;
```

Note the second `push` spreads `headers` itself (the template headers just
pushed), not `request.headers`. -/

/-- The effective header list the source computes when a template is
configured: the template's headers, then — whenever the request carries a
`headers` array at all — those same template headers again. -/
def mergedHeaders (templateHeaders requestHeaders : Option (List HttpHeader)) :
    List HttpHeader :=
  let headers : List HttpHeader := []
  let headers := match templateHeaders with
    | some th => headers ++ th
    | none => headers
  match requestHeaders with
  | some _ => headers ++ headers
  | none => headers

/-- `Object.assign(Object.create(null), template, request)` followed by the
header overwrite: each optional field is the request's own value when
present, otherwise the template's; `method` and `url` are always the
request's; `headers` is replaced by `mergedHeaders`. -/
def mergeWithTemplate (template : Option HttpRequest) (request : HttpRequest) :
    HttpRequest :=
  match template with
  | none => request
  | some t =>
    { method := request.method
      url := request.url
      headers := some (mergedHeaders t.headers request.headers)
      body := match request.body with
        | some b => some b
        | none => t.body
      sslVersion := match request.sslVersion with
        | some v => some v
        | none => t.sslVersion
      clientCert := match request.clientCert with
        | some c => some c
        | none => t.clientCert }

/-- The header merge as the specification words it: the template's headers
followed by the request's own headers (template headers first). -/
def specEffectiveHeaders (t r : HttpRequest) : List HttpHeader :=
  t.headers.getD [] ++ r.headers.getD []

/-! ## Pipeline: dispatch (`HttpPipeline.requestAsync`, lines 67-86)

One dispatch round: request handlers are modelled as functions from the
effective request to an optional response (a handler that resolves
`undefined` declines); response handlers additionally receive the current
response.  The source loop is

```
for (const handleRequestAsync of this._requestHandlers) {
  response = await handleRequestAsync(this, request);
  if (response) break;
}
if (!response) throw new Error("No request handler handled request.");
for (const handleResponseAsync of this._responseHandlers) {
  response = await handleResponseAsync(this, request, response) || response;
}
```
-/

/-- A request handler abstracted over the pipeline argument it closes over. -/
def ReqHandler : Type := HttpRequest → Option HttpResponse

/-- A response handler abstracted over the pipeline argument. -/
def RespHandler : Type := HttpRequest → HttpResponse → Option HttpResponse

/-- The request-handler loop, instrumented with the zero-based indices of
the handlers it invokes, in invocation order (`i` is the index of the head
of `hs` in the full chain).  Iteration stops at the first handler that
returns a response. -/
def dispatchFrom (hs : List ReqHandler) (request : HttpRequest) (i : Nat) :
    Option HttpResponse × List Nat :=
  match hs with
  | [] => (none, [])
  | h :: rest =>
    match h request with
    | some r => (some r, [i])
    | none =>
      let t := dispatchFrom rest request (i + 1)
      (t.1, i :: t.2)

/-- The response produced by the request-handler loop. -/
def dispatch (hs : List ReqHandler) (request : HttpRequest) :
    Option HttpResponse :=
  (dispatchFrom hs request 0).1

/-- The response-handler loop: `response = await h(...) || response`. -/
def postProcess (hs : List RespHandler) (request : HttpRequest)
    (response : HttpResponse) : HttpResponse :=
  hs.foldl (fun r h => (h request r).getD r) response

/-- `HttpPipeline.requestAsync`: template merge, then first-responder-wins
dispatch, then chained response post-processing; throws when no request
handler produced a response. -/
def requestAsyncModel (template : Option HttpRequest)
    (reqHandlers : List ReqHandler) (respHandlers : List RespHandler)
    (request : HttpRequest) : Except JsError HttpResponse :=
  let request := mergeWithTemplate template request
  match dispatch reqHandlers request with
  | none => .error (.jsError "No request handler handled request.")
  | some response => .ok (postProcess respHandlers request response)

/-! ## Per-site auth coordinator (`src/unnamed/part_000`)

The response handler returned by `createResponseHandler` closes over
`siteMap`, a dictionary from site id (the host of the request URL) to
either a pending token promise, `"Retry"`, or `"NotSupported"`.  A pending
promise is identified here by the numeric id of the attempt it belongs to;
`next` numbers attempts in initiation order. -/

/-- A site's coordination record: an in-flight attempt (identified by its
attempt id), `"Retry"`, or `"NotSupported"`. -/
inductive SiteRecord
  | inFlight (attempt : Nat)
  | retry
  | notSupported
deriving DecidableEq, Repr

/-- The coordinator's mutable state: the `siteMap` dictionary (latest
binding first) and the id the next initiated attempt receives. -/
structure CoordState where
  sites : List (String × SiteRecord)
  next : Nat
deriving DecidableEq, Repr

/-- What a single invocation of the coordinator response handler does,
beyond its state update: resolve `undefined` (decline), await a pending
attempt and then re-issue the original request, re-issue immediately, or
initiate a fresh attempt (whose promise it returns). -/
inductive HandlerAction
  | decline
  | awaitThenRetry (attempt : Nat)
  | retryNow
  | initiate (attempt : Nat)
deriving DecidableEq, Repr

/-- `siteMap[siteId] = acquireTokenAsync(...)` plus the returned promise:
records a fresh in-flight attempt under the site key before any suspension
point. -/
def beginAttempt (st : CoordState) (siteId : String) :
    CoordState × HandlerAction :=
  ({ sites := (siteId, .inFlight st.next) :: st.sites, next := st.next + 1 },
    .initiate st.next)

/-- One synchronous invocation of the coordinator response handler (the
function returned by `createResponseHandler`), faithful to the source's
order of checks: status code first, then the unguarded
`request.headers.find(...)` (a `TypeError` when `headers` is absent), then
the record consultation — which is reached only when no `Authorization`
header is present; otherwise the handler falls through and initiates. -/
def handlerStep (st : CoordState) (request : HttpRequest)
    (response : HttpResponse) : Except JsError (CoordState × HandlerAction) :=
  if response.statusCode ≠ 401 ∧ response.statusCode ≠ 403 then
    .ok (st, .decline)
  else
    let siteId := urlHost request.url
    match request.headers with
    | none => .error .typeError
    | some hdrs =>
      if hdrs.any (fun hd => hd.name == "Authorization") then
        .ok (beginAttempt st siteId)
      else
        match st.sites.lookup siteId with
        | some (.inFlight a) => .ok (st, .awaitThenRetry a)
        | some .retry => .ok (st, .retryNow)
        | some .notSupported => .ok (st, .decline)
        | none => .ok (beginAttempt st siteId)

/-- The settlement callback
`tokenPromise.then((r) => siteMap[siteId] = r ? "Retry" : "NotSupported")`:
it is registered with no rejection handler, so when the attempt's promise
rejects the callback never runs and the map keeps its old binding. -/
def settleStep (st : CoordState) (siteId : String)
    (result : Except JsError (Option HttpResponse)) : CoordState :=
  match result with
  | .ok r =>
    { st with
      sites := (siteId, if r.isSome then .retry else .notSupported) :: st.sites }
  | .error _ => st

/-- A sequence of handler invocations between two suspension points of the
attempt: each entry is one `(request, response)` pair reaching the
coordinator; the state threads through, the actions are collected in
order, and a thrown error aborts the run. -/
def runEntries (st : CoordState) :
    List (HttpRequest × HttpResponse) →
    Except JsError (CoordState × List HandlerAction)
  | [] => .ok (st, [])
  | e :: rest =>
    match handlerStep st e.1 e.2 with
    | .error err => .error err
    | .ok (st1, act) =>
      match runEntries st1 rest with
      | .error err => .error err
      | .ok (st2, acts) => .ok (st2, act :: acts)

/-- An entry is a concurrent 401/403 observation for site `s` carrying no
`Authorization` header (the situation of the single-flight invariant). -/
def isConcurrent401Entry (s : String) (e : HttpRequest × HttpResponse) :
    Bool :=
  urlHost e.1.url == s &&
  (e.2.statusCode == 401 || e.2.statusCode == 403) &&
  match e.1.headers with
  | none => false
  | some hdrs => !(hdrs.any (fun hd => hd.name == "Authorization"))

/-! ## Transport request handler (`src/http/request-handlers/node.ts`)

`handleRequestAsync` returns `new Promise((resolve, reject) => ...)`.  The
outcome of that promise is decided by which of `resolve`/`reject` the
executor reaches; an executor path that returns without calling either
leaves the promise pending forever. -/

/-- The fate of the transport handler's returned promise, as determined by
the synchronous part of the executor: settled later by network events
(`issued`), rejected with the invalid-client-certificate error, resolved
with no value, or never settled at all. -/
inductive ExecOutcome
  | issued (secure : Bool)
  | rejectedInvalidCert (certType : String)
  | resolvedNone
  | pendingForever
deriving DecidableEq, Repr

/-- The body-preparation step: a body that is neither a `Buffer` nor a
string is JSON-encoded and a `Content-Type: application/json; charset=utf-8`
header is inserted (or overwritten in place), initialising `headers` to an
empty array first when it is absent. -/
def prepareBody (request : HttpRequest) : HttpRequest :=
  match request.body with
  | some (.buf _) => request
  | some (.str _) => request
  | _ =>
    let hdrs := request.headers.getD []
    let ct : HttpHeader :=
      ⟨"Content-Type", "application/json; charset=utf-8"⟩
    match hdrs.findIdx? (fun h => h.name == "Content-Type") with
    | some i => { request with headers := some (hdrs.set i ct) }
    | none => { request with headers := some (hdrs ++ [ct]) }

/-- The synchronous executor of `handleRequestAsync`: body preparation,
then dispatch on the parsed URL's protocol.  `http:` and `https:` issue the
request (with the client-certificate variant check on the secure path); any
other protocol hits the bare `return undefined` inside the executor, which
settles nothing — the promise stays pending forever. -/
def handleRequestNode (request : HttpRequest) : HttpRequest × ExecOutcome :=
  let request := prepareBody request
  match urlProtocol request.url with
  | some "http:" => (request, .issued false)
  | some "https:" =>
    match request.clientCert with
    | some cc =>
      if cc.certType = "pem" ∨ cc.certType = "pfx" then
        (request, .issued true)
      else
        (request, .rejectedInvalidCert cc.certType)
    | none => (request, .issued true)
  | _ => (request, .pendingForever)

/-! ## Pipeline construction and handler-list accessors
(`HttpPipeline` constructor and getters, lines 25-45)

JS arrays are heap objects: the constructor allocates two fresh arrays and
copies the provided handlers into them; the `requestHandlers` /
`responseHandlers` getters `return this._requestHandlers` — the internal
array object itself, not a copy.  The heap maps array references to their
contents (handlers identified by numeric ids). -/

/-- A heap of JS arrays of handler ids: a total store plus an allocation
counter.  References are `Nat`s below `next`. -/
structure HandlerHeap where
  store : Nat → List Nat
  next : Nat

/-- Allocate a fresh array with the given contents. -/
def heapAlloc (h : HandlerHeap) (xs : List Nat) : HandlerHeap × Nat :=
  ({ store := fun r => if r = h.next then xs else h.store r,
     next := h.next + 1 }, h.next)

/-- Read an array through its reference. -/
def heapRead (h : HandlerHeap) (r : Nat) : List Nat :=
  h.store r

/-- `array.push(x)` through a reference: in-place mutation of the heap. -/
def heapPush (h : HandlerHeap) (r : Nat) (x : Nat) : HandlerHeap :=
  { h with store := fun q => if q = r then h.store r ++ [x] else h.store q }

/-- `array.push(...xs)`. -/
def heapPushAll (h : HandlerHeap) (r : Nat) (xs : List Nat) : HandlerHeap :=
  xs.foldl (fun hh x => heapPush hh r x) h

/-- The pipeline object: references to its two private handler arrays. -/
structure PipelineObj where
  reqRef : Nat
  respRef : Nat
deriving DecidableEq, Repr

/-- The `HttpPipeline` constructor: `this._requestHandlers = []`,
`this._responseHandlers = []`, then `push(...requestHandlers)` and
`push(...responseHandlers)` on the fresh arrays. -/
def constructPipeline (h : HandlerHeap)
    (requestHandlers responseHandlers : List Nat) :
    HandlerHeap × PipelineObj :=
  let a1 := heapAlloc h []
  let a2 := heapAlloc a1.1 []
  let h3 := heapPushAll a2.1 a1.2 requestHandlers
  let h4 := heapPushAll h3 a2.2 responseHandlers
  (h4, ⟨a1.2, a2.2⟩)

/-- The `requestHandlers` getter: `return this._requestHandlers` — the
internal reference itself. -/
def getRequestHandlers (p : PipelineObj) : Nat :=
  p.reqRef

/-- The `responseHandlers` getter: `return this._responseHandlers`. -/
def getResponseHandlers (p : PipelineObj) : Nat :=
  p.respRef

/-! ## Certificate info extractor (`src/http/request-handlers/node.ts`,
`objectToString` and `toCertificateInfo`)

The raw peer certificate's `subject`/`issuer` are plain objects whose own
enumerable properties are the distinguished-name fields, modelled as
ordered key/value lists.  `crypto.createHash("sha1")` is modelled by a
full SHA-1 over the raw byte list, and `.digest("hex")` by lowercase hex
encoding. -/

/-- `objectToString`: accumulate `` `${key}=${value}, ` `` over the fields
and chop the final two characters (`substr(0, length - 2)`; on the empty
string the JS negative length also yields the empty string, as truncated
subtraction does here). -/
def objectToString (fields : List (String × String)) : String :=
  let str := fields.foldl (fun s p => s ++ (p.1 ++ "=" ++ p.2 ++ ", ")) ""
  String.mk (str.data.take (str.data.length - 2))

/-- The flattening as the specification words it: the distinguished-name
fields rendered `key=value` and joined by `", "`. -/
def dnFlatten : List (String × String) → String
  | [] => ""
  | [p] => p.1 ++ "=" ++ p.2
  | p :: q :: rest => p.1 ++ "=" ++ p.2 ++ ", " ++ dnFlatten (q :: rest)

/-- 2^32, the word modulus of SHA-1. -/
def m32 : Nat := 4294967296

/-- Rotate a 32-bit word left by `n`. -/
def rotl32 (n x : Nat) : Nat :=
  ((x <<< n) ||| (x >>> (32 - n))) % m32

/-- The SHA-1 round constant for round `i`. -/
def sha1K (i : Nat) : Nat :=
  if i < 20 then 0x5A827999
  else if i < 40 then 0x6ED9EBA1
  else if i < 60 then 0x8F1BBCDC
  else 0xCA62C1D6

/-- The SHA-1 round function for round `i`. -/
def sha1F (i b c d : Nat) : Nat :=
  if i < 20 then (b &&& c) ||| (((m32 - 1) ^^^ b) &&& d)
  else if i < 40 then (b ^^^ c) ^^^ d
  else if i < 60 then ((b &&& c) ||| (b &&& d)) ||| (c &&& d)
  else (b ^^^ c) ^^^ d

/-- A big-endian 32-bit word from four bytes. -/
def bytesToWord (a b c d : Nat) : Nat :=
  (((a % 256) <<< 24) ||| ((b % 256) <<< 16)) ||| (((c % 256) <<< 8) ||| (d % 256))

/-- The sixteen initial schedule words of a 64-byte chunk. -/
def chunkWords : List Nat → List Nat
  | a :: b :: c :: d :: rest => bytesToWord a b c d :: chunkWords rest
  | _ => []

/-- Append the next schedule word
`rotl1 (w[n-3] xor w[n-8] xor w[n-14] xor w[n-16])`. -/
def extendOnce (ws : List Nat) : List Nat :=
  let n := ws.length
  ws ++ [rotl32 1 (((ws.getD (n - 3) 0) ^^^ (ws.getD (n - 8) 0)) ^^^
    ((ws.getD (n - 14) 0) ^^^ (ws.getD (n - 16) 0)))]

/-- Extend the sixteen chunk words to the eighty schedule words. -/
def schedule (ws : List Nat) : List Nat :=
  (List.range 64).foldl (fun l _ => extendOnce l) ws

/-- The five SHA-1 working words. -/
structure Sha1State where
  a : Nat
  b : Nat
  c : Nat
  d : Nat
  e : Nat
deriving DecidableEq, Repr

/-- One SHA-1 round on working state `st` with round index and schedule
word `iw`. -/
def sha1Round (st : Sha1State) (iw : Nat × Nat) : Sha1State :=
  { a := (((rotl32 5 st.a + sha1F iw.1 st.b st.c st.d) + st.e) +
      (sha1K iw.1 + iw.2)) % m32
    b := st.a
    c := rotl32 30 st.b
    d := st.c
    e := st.d }

/-- Process one 64-byte chunk into the running hash words. -/
def processChunk (h : Sha1State) (chunk : List Nat) : Sha1State :=
  let ws := schedule (chunkWords chunk)
  let f := ((List.range 80).zip ws).foldl sha1Round h
  { a := (h.a + f.a) % m32
    b := (h.b + f.b) % m32
    c := (h.c + f.c) % m32
    d := (h.d + f.d) % m32
    e := (h.e + f.e) % m32 }

/-- Split a byte list into chunks of 64. -/
def chunks64 (l : List Nat) : List (List Nat) :=
  if h : l = [] then []
  else
    have : l.length - 64 < l.length := by
      cases l with
      | nil => exact absurd rfl h
      | cons x xs => simp; omega
    l.take 64 :: chunks64 (l.drop 64)
termination_by l.length
decreasing_by simpa using this

/-- SHA-1 padding: `0x80`, zeros to 56 mod 64, then the 64-bit big-endian
bit length. -/
def padMessage (msg : List Nat) : List Nat :=
  let bitLen := msg.length * 8
  let padZeros := (120 - (msg.length + 1) % 64) % 64
  msg ++ [128] ++ List.replicate padZeros 0 ++
    [(bitLen >>> 56) % 256, (bitLen >>> 48) % 256, (bitLen >>> 40) % 256,
      (bitLen >>> 32) % 256, (bitLen >>> 24) % 256, (bitLen >>> 16) % 256,
      (bitLen >>> 8) % 256, bitLen % 256]

/-- The four big-endian bytes of a 32-bit word. -/
def wordBytes (w : Nat) : List Nat :=
  [(w >>> 24) % 256, (w >>> 16) % 256, (w >>> 8) % 256, w % 256]

/-- SHA-1 of a byte list: a 20-byte digest. -/
def sha1 (msg : List Nat) : List Nat :=
  let init : Sha1State :=
    ⟨0x67452301, 0xEFCDAB89, 0x98BADCFE, 0x10325476, 0xC3D2E1F0⟩
  let f := (chunks64 (padMessage msg)).foldl processChunk init
  ((wordBytes f.a ++ wordBytes f.b) ++ wordBytes f.c) ++
    (wordBytes f.d ++ wordBytes f.e)

/-- A lowercase hexadecimal digit character. -/
def hexChar (n : Nat) : Char :=
  if n < 10 then Char.ofNat (48 + n) else Char.ofNat (87 + n)

/-- The two hex characters of one byte. -/
def byteHex (b : Nat) : List Char :=
  [hexChar ((b >>> 4) % 16), hexChar (b % 16)]

/-- `.digest("hex")`: lowercase hex encoding of a byte list. -/
def hexEncode (bytes : List Nat) : String :=
  String.mk (bytes.map byteHex).flatten

/-- A hexadecimal digit character: `0`-`9` or lowercase `a`-`f`. -/
def isHexDigitChar (c : Char) : Bool :=
  (48 ≤ c.toNat && c.toNat ≤ 57) || (97 ≤ c.toNat && c.toNat ≤ 102)

/-- The raw peer certificate (`tls.PeerCertificate`) as consumed by
`toCertificateInfo`: distinguished-name field lists, serial, validity
strings and the raw DER bytes. -/
structure PeerCertificate where
  subject : List (String × String)
  issuer : List (String × String)
  serialNumber : String
  valid_from : String
  valid_to : String
  raw : List Nat
deriving DecidableEq, Repr

/-- `ICertificateInfo` (validity dates kept as their source strings). -/
structure CertificateInfo where
  subjectName : String
  issuerName : String
  serialNumber : String
  validStart : String
  validExpiry : String
  thumbprint : String
deriving DecidableEq, Repr

/-- `toCertificateInfo`: flatten subject and issuer with `objectToString`,
copy serial and validity, and thumbprint the raw bytes with hex SHA-1. -/
def toCertificateInfo (cert : PeerCertificate) : CertificateInfo :=
  { subjectName := objectToString cert.subject
    issuerName := objectToString cert.issuer
    serialNumber := cert.serialNumber
    validStart := cert.valid_from
    validExpiry := cert.valid_to
    thumbprint := hexEncode (sha1 cert.raw) }

deriving instance DecidableEq for Except

/-! ## Theorems -/

/-- C1: the claim says the effective request's headers are the template's
headers followed by the request's own headers.  The source instead spreads
the freshly built array into itself (`headers.push(...headers)`), so with
template header `X-T: 1` and request header `X-R: 2` the effective list is
`[X-T: 1, X-T: 1]` — the template headers duplicated, the request's own
header dropped — which differs from the claimed `[X-T: 1, X-R: 2]`.  The
specification itself flags this line as a latent bug and fixes the claimed
semantics as the contract, so the claim is right and the code is wrong. -/
theorem c1_header_merge_code_bug :
    (mergeWithTemplate
        (some ⟨"GET", "http://example.com/", some [⟨"X-T", "1"⟩], none, none,
          none⟩)
        ⟨"GET", "http://example.com/a", some [⟨"X-R", "2"⟩], none, none,
          none⟩).headers = some [⟨"X-T", "1"⟩, ⟨"X-T", "1"⟩] ∧
    specEffectiveHeaders
        ⟨"GET", "http://example.com/", some [⟨"X-T", "1"⟩], none, none, none⟩
        ⟨"GET", "http://example.com/a", some [⟨"X-R", "2"⟩], none, none,
          none⟩ = [⟨"X-T", "1"⟩, ⟨"X-R", "2"⟩] ∧
    (mergeWithTemplate
        (some ⟨"GET", "http://example.com/", some [⟨"X-T", "1"⟩], none, none,
          none⟩)
        ⟨"GET", "http://example.com/a", some [⟨"X-R", "2"⟩], none, none,
          none⟩).headers ≠
      some (specEffectiveHeaders
        ⟨"GET", "http://example.com/", some [⟨"X-T", "1"⟩], none, none, none⟩
        ⟨"GET", "http://example.com/a", some [⟨"X-R", "2"⟩], none, none,
          none⟩) := by
  refine ⟨rfl, rfl, ?_⟩
  decide

/-- C3 counterexample: the claim says that on a 401 whose request already
carries an `Authorization` header the handler never initiates a new
attempt and — with the site recorded `not-supported` — declines.  The
source's record consultation is guarded by the *absence* of the header, so
with the header present it falls through and initiates attempt `0`,
overwriting the `not-supported` record. -/
theorem c3_auth_header_counterexample :
    handlerStep ⟨[("example.com", .notSupported)], 0⟩
        ⟨"GET", "http://example.com/a",
          some [⟨"Authorization", "Bearer t"⟩], none, none, none⟩
        ⟨"1.1", 401, "Unauthorized", [], [], none⟩ =
      .ok (⟨[("example.com", .inFlight 0), ("example.com", .notSupported)],
        1⟩, .initiate 0) ∧
    handlerStep ⟨[("example.com", .notSupported)], 0⟩
        ⟨"GET", "http://example.com/a",
          some [⟨"Authorization", "Bearer t"⟩], none, none, none⟩
        ⟨"1.1", 401, "Unauthorized", [], [], none⟩ ≠
      .ok (⟨[("example.com", .notSupported)], 0⟩, .decline) := by
  refine ⟨rfl, ?_⟩
  decide

/-- C3 amended: on a 401/403 whose request carries an `Authorization`
header the coordinator does not consult the site's record at all — it
unconditionally initiates a fresh authentication attempt, records it
in-flight under the site key, and returns its promise; only requests
without the header consult the existing record. -/
theorem c3_auth_header_initiates (st : CoordState) (request : HttpRequest)
    (response : HttpResponse) (hdrs : List HttpHeader)
    (hstatus : response.statusCode = 401 ∨ response.statusCode = 403)
    (hheaders : request.headers = some hdrs)
    (hauth : hdrs.any (fun hd => hd.name == "Authorization") = true) :
    handlerStep st request response =
      .ok (⟨(urlHost request.url, .inFlight st.next) :: st.sites,
        st.next + 1⟩, .initiate st.next) := by
  unfold handlerStep beginAttempt
  rcases hstatus with h | h <;> simp [h, hheaders, hauth]

/-- C3 amended, witness: a concrete 401 with an `Authorization` header and
an empty coordination map initiates attempt `0`. -/
theorem c3_auth_header_initiates_witness :
    handlerStep ⟨[], 5⟩
        ⟨"GET", "http://example.com/a",
          some [⟨"Authorization", "Bearer t"⟩], none, none, none⟩
        ⟨"1.1", 401, "Unauthorized", [], [], none⟩ =
      .ok (⟨[("example.com", .inFlight 5)], 6⟩, .initiate 5) :=
  c3_auth_header_initiates ⟨[], 5⟩ _ _ _ (Or.inl rfl) rfl (by decide)

/-- C4 counterexample: the claim says the record is updated (to
`not-supported`) even when the attempt throws.  The settlement callback is
registered with `.then` and no rejection handler, so on a rejected attempt
the map keeps the in-flight binding: with the attempt for `example.com`
rejected, the record is still `inFlight 0`, not `notSupported`. -/
theorem c4_throw_keeps_record_counterexample :
    settleStep ⟨[("example.com", .inFlight 0)], 1⟩ "example.com"
        (.error (.jsError "metadata fetch failed")) =
      ⟨[("example.com", .inFlight 0)], 1⟩ ∧
    (settleStep ⟨[("example.com", .inFlight 0)], 1⟩ "example.com"
        (.error (.jsError "metadata fetch failed"))).sites.lookup
        "example.com" ≠ some .notSupported := by
  refine ⟨rfl, ?_⟩
  decide

/-- C4 amended: when the attempt's promise is *fulfilled* the record is
updated — `retry` on a usable response, `not-supported` on no value — but
when the promise rejects the settlement callback never runs and the
coordinator state is left exactly as it was (the in-flight binding stays;
waiters are not left waiting only because the rejection itself propagates
to them through the awaited promise). -/
theorem c4_settle_updates_only_on_fulfilment (st : CoordState)
    (siteId : String) :
    (∀ r : HttpResponse,
      (settleStep st siteId (.ok (some r))).sites.lookup siteId =
        some .retry) ∧
    ((settleStep st siteId (.ok none)).sites.lookup siteId =
      some .notSupported) ∧
    (∀ e : JsError, settleStep st siteId (.error e) = st) := by
  refine ⟨fun r => ?_, ?_, fun e => rfl⟩ <;>
    simp [settleStep, List.lookup]

/-- C7: the claim says the transport handler resolves with no value for an
unsupported URL scheme so the pipeline can try the next handler.  The bare
`return undefined` sits inside the `new Promise` executor, so neither
`resolve` nor `reject` is ever called: for `ftp://example.com/a` the
returned promise stays pending forever (the awaiting pipeline hangs)
instead of resolving with no value. -/
theorem c7_unsupported_scheme_never_settles :
    (handleRequestNode
        ⟨"GET", "ftp://example.com/a", none, none, none, none⟩).2 =
      .pendingForever ∧
    (handleRequestNode
        ⟨"GET", "ftp://example.com/a", none, none, none, none⟩).2 ≠
      .resolvedNone := by
  refine ⟨rfl, ?_⟩
  decide

/-- C10: on a 401/403 whose request carries no `headers` array at all, the
coordinator's unguarded `request.headers.find(...)` accesses a member of
`undefined` and the handler throws a `TypeError` instead of declining. -/
theorem c10_missing_headers_type_error (st : CoordState)
    (request : HttpRequest) (response : HttpResponse)
    (hstatus : response.statusCode = 401 ∨ response.statusCode = 403)
    (hheaders : request.headers = none) :
    handlerStep st request response = .error .typeError := by
  unfold handlerStep
  rcases hstatus with h | h <;> simp [h, hheaders]

/-- C10 witness: a concrete 401 whose request has no headers field makes
the coordinator throw. -/
theorem c10_missing_headers_type_error_witness :
    handlerStep ⟨[], 0⟩
        ⟨"GET", "http://example.com/a", none, none, none, none⟩
        ⟨"1.1", 401, "Unauthorized", [], [], none⟩ = .error .typeError :=
  c10_missing_headers_type_error ⟨[], 0⟩ _ _ (Or.inl rfl) rfl

/-- When every request handler declines, the dispatch loop produces no
response, wherever in the chain it starts. -/
theorem dispatchFrom_all_none (hs : List ReqHandler) (request : HttpRequest)
    (h : ∀ f ∈ hs, f request = none) :
    ∀ i, (dispatchFrom hs request i).1 = none := by
  induction hs with
  | nil => intro i; rfl
  | cons g rest ih =>
    intro i
    have hg : g request = none := h g (List.mem_cons_self g rest)
    simp only [dispatchFrom, hg]
    exact ih (fun f hf => h f (List.mem_cons_of_mem g hf)) (i + 1)

/-- C5: when no request handler returns a response, `requestAsync` throws
the distinct `"No request handler handled request."` configuration error.
The response-handler list is universally quantified and absent from the
conclusion: no response handler runs on this path, and the model returns
the error to the caller with no retry of any kind. -/
theorem c5_no_handler_error (template : Option HttpRequest)
    (reqHandlers : List ReqHandler) (respHandlers : List RespHandler)
    (request : HttpRequest)
    (h : ∀ f ∈ reqHandlers, f (mergeWithTemplate template request) = none) :
    requestAsyncModel template reqHandlers respHandlers request =
      .error (.jsError "No request handler handled request.") := by
  have hd : dispatch reqHandlers (mergeWithTemplate template request) = none :=
    dispatchFrom_all_none _ _ h 0
  simp [requestAsyncModel, hd]

/-- C5 witness: a `GET http://example.com/a` through a pipeline with no
request handlers registered (and a response handler that would replace any
response) fails with the configuration error. -/
theorem c5_no_handler_error_witness :
    requestAsyncModel none [] [fun _ r => some r]
        ⟨"GET", "http://example.com/a", none, none, none, none⟩ =
      .error (.jsError "No request handler handled request.") :=
  c5_no_handler_error none [] [fun _ r => some r]
    ⟨"GET", "http://example.com/a", none, none, none, none⟩
    (by intro f hf; simp at hf)

/-- The dispatch loop, started at index `i`, on a chain whose first
responder is `g` (everything before it declines): it invokes exactly the
handlers at offsets `0..pre.length`, in order, and stops with `g`'s
response. -/
theorem dispatchFrom_first_responder (pre post : List ReqHandler)
    (g : ReqHandler) (request : HttpRequest) (r : HttpResponse)
    (hpre : ∀ f ∈ pre, f request = none) (hg : g request = some r) :
    ∀ i, dispatchFrom (pre ++ g :: post) request i =
      (some r, List.range' i (pre.length + 1)) := by
  induction pre with
  | nil =>
    intro i
    simp [dispatchFrom, hg, List.range']
  | cons f rest ih =>
    intro i
    have hf : f request = none := hpre f (List.mem_cons_self f rest)
    have step := ih (fun f' h' => hpre f' (List.mem_cons_of_mem f h')) (i + 1)
    simp only [List.cons_append, dispatchFrom, hf]
    simp [step, List.range']

/-- C6: request handlers run strictly in registration order and dispatch
stops at the first responder.  On a chain `pre ++ g :: post` where every
handler of `pre` declines and `g` responds with `r`, the instrumented loop
invokes exactly the indices `0, 1, ..., pre.length` (so nothing in `post`
is ever invoked), and `requestAsync` feeds exactly `g`'s response `r` to
the response-handler phase. -/
theorem c6_first_responder_wins (pre post : List ReqHandler)
    (g : ReqHandler) (respHandlers : List RespHandler)
    (request : HttpRequest) (r : HttpResponse)
    (hpre : ∀ f ∈ pre, f request = none) (hg : g request = some r) :
    dispatchFrom (pre ++ g :: post) request 0 =
      (some r, List.range' 0 (pre.length + 1)) ∧
    requestAsyncModel none (pre ++ g :: post) respHandlers request =
      .ok (postProcess respHandlers request r) := by
  have h1 := dispatchFrom_first_responder pre post g request r hpre hg 0
  refine ⟨h1, ?_⟩
  simp [requestAsyncModel, dispatch, mergeWithTemplate, h1]

/-- C6 witness: in a three-handler chain whose second handler is the first
responder, exactly the handlers at indices `0` and `1` are invoked, and the
second handler's response is the pipeline's result. -/
theorem c6_first_responder_wins_witness :
    dispatchFrom
        [fun _ => none,
          fun _ => some ⟨"1.1", 200, "OK", [], [], none⟩,
          fun _ => some ⟨"1.1", 500, "Server Error", [], [], none⟩]
        ⟨"GET", "http://example.com/a", none, none, none, none⟩ 0 =
      (some ⟨"1.1", 200, "OK", [], [], none⟩, [0, 1]) ∧
    requestAsyncModel none
        [fun _ => none,
          fun _ => some ⟨"1.1", 200, "OK", [], [], none⟩,
          fun _ => some ⟨"1.1", 500, "Server Error", [], [], none⟩] []
        ⟨"GET", "http://example.com/a", none, none, none, none⟩ =
      .ok ⟨"1.1", 200, "OK", [], [], none⟩ :=
  c6_first_responder_wins [fun _ => none]
    [fun _ => some ⟨"1.1", 500, "Server Error", [], [], none⟩]
    (fun _ => some ⟨"1.1", 200, "OK", [], [], none⟩) []
    ⟨"GET", "http://example.com/a", none, none, none, none⟩
    ⟨"1.1", 200, "OK", [], [], none⟩
    (by intro f hf; rw [List.mem_singleton] at hf; subst hf; rfl) rfl

/-- Unpack a concurrent-401 entry: its request targets site `s`, its
response is a 401 or 403, and it carries headers without `Authorization`. -/
theorem isConcurrent401Entry_spec (s : String)
    (e : HttpRequest × HttpResponse)
    (h : isConcurrent401Entry s e = true) :
    urlHost e.1.url = s ∧
    (e.2.statusCode = 401 ∨ e.2.statusCode = 403) ∧
    ∃ hdrs, e.1.headers = some hdrs ∧
      hdrs.any (fun hd => hd.name == "Authorization") = false := by
  unfold isConcurrent401Entry at h
  cases hh : e.1.headers with
  | none => rw [hh] at h; simp at h
  | some hdrs =>
    rw [hh] at h
    simp only [Bool.and_eq_true, Bool.or_eq_true, beq_iff_eq,
      Bool.not_eq_true'] at h
    exact ⟨h.1.1, h.1.2, hdrs, rfl, h.2⟩

/-- A coordinator invocation for a 401/403 without `Authorization` header
is decided entirely by the site's record: await an in-flight attempt,
retry, decline, or — only when no record exists — begin an attempt. -/
theorem handlerStep_no_auth (st : CoordState) (request : HttpRequest)
    (response : HttpResponse) (hdrs : List HttpHeader)
    (hstatus : response.statusCode = 401 ∨ response.statusCode = 403)
    (hheaders : request.headers = some hdrs)
    (hnoauth : hdrs.any (fun hd => hd.name == "Authorization") = false) :
    handlerStep st request response =
      match st.sites.lookup (urlHost request.url) with
      | some (.inFlight a) => .ok (st, .awaitThenRetry a)
      | some .retry => .ok (st, .retryNow)
      | some .notSupported => .ok (st, .decline)
      | none => .ok (beginAttempt st (urlHost request.url)) := by
  unfold handlerStep
  rcases hstatus with h | h <;> simp [h, hheaders, hnoauth]

/-- While an attempt for site `s` is in flight, every further concurrent
401/403 entry for `s` leaves the coordinator state untouched and awaits
that same attempt. -/
theorem runEntries_all_await (s : String) (a : Nat)
    (entries : List (HttpRequest × HttpResponse)) :
    ∀ st : CoordState, st.sites.lookup s = some (.inFlight a) →
      (∀ e ∈ entries, isConcurrent401Entry s e = true) →
      runEntries st entries =
        .ok (st, List.replicate entries.length (.awaitThenRetry a)) := by
  induction entries with
  | nil => intro st _ _; rfl
  | cons e rest ih =>
    intro st hrec hall
    obtain ⟨hhost, hstatus, hdrs, hh, hnoauth⟩ :=
      isConcurrent401Entry_spec s e (hall e (List.mem_cons_self e rest))
    have hstep := handlerStep_no_auth st e.1 e.2 hdrs hstatus hh hnoauth
    rw [hhost, hrec] at hstep
    simp [runEntries, hstep,
      ih st hrec (fun x hx => hall x (List.mem_cons_of_mem e hx)),
      List.replicate]

/-- C2: single-flight per site.  For any batch of concurrent 401/403
observations for the same site `s` — none carrying an `Authorization`
header, the site initially unrecorded — run in any arrival order from any
state: the first caller alone initiates an attempt (id `st.next`), every
other caller observes the in-flight record of that same attempt and awaits
it, and the outcome is consistent: after the shared attempt settles with no
usable response every caller's automatic re-issue is declined, letting the
server's 401/403 stand, and after it settles with a usable response every
caller's re-issue retries immediately. -/
theorem c2_single_flight (st : CoordState) (s : String)
    (e0 : HttpRequest × HttpResponse)
    (rest : List (HttpRequest × HttpResponse))
    (habsent : st.sites.lookup s = none)
    (hall : ∀ e ∈ e0 :: rest, isConcurrent401Entry s e = true) :
    runEntries st (e0 :: rest) =
      .ok (⟨(s, .inFlight st.next) :: st.sites, st.next + 1⟩,
        .initiate st.next ::
          List.replicate rest.length (.awaitThenRetry st.next)) ∧
    (((s, SiteRecord.inFlight st.next) :: st.sites).lookup s =
      some (.inFlight st.next)) ∧
    (∀ e ∈ e0 :: rest,
      handlerStep
          (settleStep ⟨(s, .inFlight st.next) :: st.sites, st.next + 1⟩ s
            (.ok none)) e.1 e.2 =
        .ok (settleStep ⟨(s, .inFlight st.next) :: st.sites, st.next + 1⟩ s
          (.ok none), .decline)) ∧
    (∀ e ∈ e0 :: rest, ∀ tok : HttpResponse,
      handlerStep
          (settleStep ⟨(s, .inFlight st.next) :: st.sites, st.next + 1⟩ s
            (.ok (some tok))) e.1 e.2 =
        .ok (settleStep ⟨(s, .inFlight st.next) :: st.sites, st.next + 1⟩ s
          (.ok (some tok)), .retryNow)) := by
  obtain ⟨hhost0, hstatus0, hdrs0, hh0, hnoauth0⟩ :=
    isConcurrent401Entry_spec s e0 (hall e0 (List.mem_cons_self e0 rest))
  have hstep0 := handlerStep_no_auth st e0.1 e0.2 hdrs0 hstatus0 hh0 hnoauth0
  rw [hhost0, habsent] at hstep0
  have hrec1 :
      (((s, SiteRecord.inFlight st.next) :: st.sites).lookup s) =
        some (.inFlight st.next) := by
    simp [List.lookup]
  refine ⟨?_, hrec1, ?_, ?_⟩
  · have hrest := runEntries_all_await s st.next rest
      ⟨(s, .inFlight st.next) :: st.sites, st.next + 1⟩ hrec1
      (fun x hx => hall x (List.mem_cons_of_mem e0 hx))
    simp [runEntries, hstep0, beginAttempt, hrest]
  · intro e he
    obtain ⟨hhost, hstatus, hdrs, hh, hnoauth⟩ :=
      isConcurrent401Entry_spec s e (hall e he)
    have hstep := handlerStep_no_auth
      (settleStep ⟨(s, .inFlight st.next) :: st.sites, st.next + 1⟩ s
        (.ok none)) e.1 e.2 hdrs hstatus hh hnoauth
    rw [hhost] at hstep
    rw [hstep]
    simp [settleStep, List.lookup]
  · intro e he tok
    obtain ⟨hhost, hstatus, hdrs, hh, hnoauth⟩ :=
      isConcurrent401Entry_spec s e (hall e he)
    have hstep := handlerStep_no_auth
      (settleStep ⟨(s, .inFlight st.next) :: st.sites, st.next + 1⟩ s
        (.ok (some tok))) e.1 e.2 hdrs hstatus hh hnoauth
    rw [hhost] at hstep
    rw [hstep]
    simp [settleStep, List.lookup]

/-- C2 witness: two concurrent 401/403 observations for `example.com`
(different paths, no `Authorization` header) from the empty coordinator
state: the first initiates attempt `0`, the second awaits that same
attempt; after a failed settlement both re-issues are declined, after a
successful one both retry. -/
theorem c2_single_flight_witness :
    runEntries ⟨[], 0⟩
        [(⟨"GET", "http://example.com/a", some [], none, none, none⟩,
          ⟨"1.1", 401, "Unauthorized", [], [], none⟩),
          (⟨"GET", "http://example.com/b", some [⟨"Accept", "*"⟩], none,
            none, none⟩,
          ⟨"1.1", 403, "Forbidden", [], [], none⟩)] =
      .ok (⟨[("example.com", .inFlight 0)], 1⟩,
        [.initiate 0, .awaitThenRetry 0]) ∧
    ([("example.com", SiteRecord.inFlight 0)].lookup "example.com" =
      some (.inFlight 0)) ∧
    (∀ e ∈
        [(⟨"GET", "http://example.com/a", some [], none, none, none⟩,
          ⟨"1.1", 401, "Unauthorized", [], [], none⟩),
          ((⟨"GET", "http://example.com/b", some [⟨"Accept", "*"⟩], none,
            none, none⟩ : HttpRequest),
          (⟨"1.1", 403, "Forbidden", [], [], none⟩ : HttpResponse))],
      handlerStep
          ⟨[("example.com", .notSupported), ("example.com", .inFlight 0)],
            1⟩ e.1 e.2 =
        .ok (⟨[("example.com", .notSupported),
          ("example.com", .inFlight 0)], 1⟩, .decline)) ∧
    (∀ e ∈
        [(⟨"GET", "http://example.com/a", some [], none, none, none⟩,
          ⟨"1.1", 401, "Unauthorized", [], [], none⟩),
          ((⟨"GET", "http://example.com/b", some [⟨"Accept", "*"⟩], none,
            none, none⟩ : HttpRequest),
          (⟨"1.1", 403, "Forbidden", [], [], none⟩ : HttpResponse))],
      ∀ _tok : HttpResponse,
      handlerStep
          ⟨[("example.com", .retry), ("example.com", .inFlight 0)], 1⟩
          e.1 e.2 =
        .ok (⟨[("example.com", .retry), ("example.com", .inFlight 0)], 1⟩,
          .retryNow)) :=
  c2_single_flight ⟨[], 0⟩ "example.com"
    (⟨"GET", "http://example.com/a", some [], none, none, none⟩,
      ⟨"1.1", 401, "Unauthorized", [], [], none⟩)
    [(⟨"GET", "http://example.com/b", some [⟨"Accept", "*"⟩], none, none,
        none⟩,
      ⟨"1.1", 403, "Forbidden", [], [], none⟩)]
    rfl (by decide)

/-- Pushing through a reference appends to that array. -/
theorem heapRead_heapPush_self (h : HandlerHeap) (r : Nat) (x : Nat) :
    heapRead (heapPush h r x) r = heapRead h r ++ [x] := by
  simp [heapRead, heapPush]

/-- Pushing through a reference leaves other arrays unchanged. -/
theorem heapRead_heapPush_ne (h : HandlerHeap) (r q : Nat) (x : Nat)
    (hne : q ≠ r) : heapRead (heapPush h r x) q = heapRead h q := by
  simp [heapRead, heapPush, hne]

/-- Spread-pushing appends all the elements to the referenced array. -/
theorem heapRead_heapPushAll_self (r : Nat) (xs : List Nat) :
    ∀ h : HandlerHeap, heapRead (heapPushAll h r xs) r = heapRead h r ++ xs := by
  induction xs with
  | nil => intro h; simp [heapPushAll]
  | cons x rest ih =>
    intro h
    rw [show heapPushAll h r (x :: rest) = heapPushAll (heapPush h r x) r rest
      from rfl, ih (heapPush h r x), heapRead_heapPush_self]
    simp

/-- Spread-pushing leaves other arrays unchanged. -/
theorem heapRead_heapPushAll_ne (r q : Nat) (xs : List Nat) (hne : q ≠ r) :
    ∀ h : HandlerHeap, heapRead (heapPushAll h r xs) q = heapRead h q := by
  induction xs with
  | nil => intro h; rfl
  | cons x rest ih =>
    intro h
    rw [show heapPushAll h r (x :: rest) = heapPushAll (heapPush h r x) r rest
      from rfl, ih (heapPush h r x), heapRead_heapPush_ne h r q x hne]

/-- C9 counterexample: the claim says a caller holding the value returned
by the `requestHandlers` accessor cannot alter the pipeline's handler
chain through it.  The getter returns the private array itself, so pushing
handler `7` through the returned reference changes the pipeline's request
chain from `[]` to `[7]`. -/
theorem c9_accessor_mutation_counterexample :
    heapRead (constructPipeline ⟨fun _ => [], 0⟩ [] []).1
      (constructPipeline ⟨fun _ => [], 0⟩ [] []).2.reqRef = [] ∧
    heapRead
      (heapPush (constructPipeline ⟨fun _ => [], 0⟩ [] []).1
        (getRequestHandlers (constructPipeline ⟨fun _ => [], 0⟩ [] []).2) 7)
      (constructPipeline ⟨fun _ => [], 0⟩ [] []).2.reqRef = [7] ∧
    heapRead
      (heapPush (constructPipeline ⟨fun _ => [], 0⟩ [] []).1
        (getRequestHandlers (constructPipeline ⟨fun _ => [], 0⟩ [] []).2) 7)
      (constructPipeline ⟨fun _ => [], 0⟩ [] []).2.reqRef ≠
      heapRead (constructPipeline ⟨fun _ => [], 0⟩ [] []).1
        (constructPipeline ⟨fun _ => [], 0⟩ [] []).2.reqRef := by
  refine ⟨rfl, rfl, ?_⟩
  decide

/-- C9 amended: the constructor allocates fresh private arrays and copies
the provided handler lists into them, and the pipeline itself never
mutates them; but the accessors return the private arrays themselves
rather than a read-only view, so a caller holding the accessor's value
*can* alter the handler chain: a push through it appends to the
pipeline's own request-handler array. -/
theorem c9_accessor_returns_internal_array (h : HandlerHeap)
    (requestHandlers responseHandlers : List Nat) (x : Nat) :
    heapRead (constructPipeline h requestHandlers responseHandlers).1
      (constructPipeline h requestHandlers responseHandlers).2.reqRef =
      requestHandlers ∧
    heapRead (constructPipeline h requestHandlers responseHandlers).1
      (constructPipeline h requestHandlers responseHandlers).2.respRef =
      responseHandlers ∧
    getRequestHandlers (constructPipeline h requestHandlers responseHandlers).2 =
      (constructPipeline h requestHandlers responseHandlers).2.reqRef ∧
    heapRead
      (heapPush (constructPipeline h requestHandlers responseHandlers).1
        (getRequestHandlers
          (constructPipeline h requestHandlers responseHandlers).2) x)
      (constructPipeline h requestHandlers responseHandlers).2.reqRef =
      requestHandlers ++ [x] := by
  have hne1 : h.next ≠ h.next + 1 := by omega
  have hne2 : h.next + 1 ≠ h.next := by omega
  have hreq :
      heapRead (constructPipeline h requestHandlers responseHandlers).1
        (constructPipeline h requestHandlers responseHandlers).2.reqRef =
        requestHandlers := by
    simp only [constructPipeline, heapAlloc]
    rw [heapRead_heapPushAll_ne _ _ _ hne1, heapRead_heapPushAll_self]
    simp [heapRead, hne1]
  refine ⟨hreq, ?_, rfl, ?_⟩
  · simp only [constructPipeline, heapAlloc]
    rw [heapRead_heapPushAll_self, heapRead_heapPushAll_ne _ _ _ hne2]
    simp [heapRead]
  · simp only [getRequestHandlers]
    rw [heapRead_heapPush_self]
    exact congrArg (fun l => l ++ [x]) hreq

/-- The `str +=` accumulation of `objectToString` factors through its
accumulator. -/
theorem objStr_foldl_acc (fields : List (String × String)) :
    ∀ acc : String,
      fields.foldl (fun s p => s ++ (p.1 ++ "=" ++ p.2 ++ ", ")) acc =
        acc ++ fields.foldl (fun s p => s ++ (p.1 ++ "=" ++ p.2 ++ ", ")) "" := by
  induction fields with
  | nil => intro acc; simp [String.append_empty]
  | cons p rest ih =>
    intro acc
    simp only [List.foldl_cons]
    rw [ih ("" ++ (p.1 ++ "=" ++ p.2 ++ ", ")),
      ih (acc ++ (p.1 ++ "=" ++ p.2 ++ ", ")), String.empty_append,
      String.append_assoc]

/-- The accumulated string of `objectToString` on a nonempty field list:
the head's `key=value, ` chunk followed by the rest's accumulation. -/
theorem objStr_foldl_cons (p : String × String)
    (rest : List (String × String)) :
    (p :: rest).foldl (fun s q => s ++ (q.1 ++ "=" ++ q.2 ++ ", ")) "" =
      (p.1 ++ "=" ++ p.2 ++ ", ") ++
        rest.foldl (fun s q => s ++ (q.1 ++ "=" ++ q.2 ++ ", ")) "" := by
  simp only [List.foldl_cons]
  rw [objStr_foldl_acc rest ("" ++ (p.1 ++ "=" ++ p.2 ++ ", ")),
    String.empty_append]

/-- The characters of one `key=value, ` chunk. -/
theorem chunk_data (p : String × String) :
    (p.1 ++ "=" ++ p.2 ++ ", ").data =
      ((p.1.data ++ ['=']) ++ p.2.data) ++ [',', ' '] := by
  simp [String.data_append]

/-- The accumulated string of a nonempty field list has at least the two
trailing `", "` characters. -/
theorem objStr_foldl_cons_length (p : String × String)
    (rest : List (String × String)) :
    2 ≤ ((p :: rest).foldl
      (fun s q => s ++ (q.1 ++ "=" ++ q.2 ++ ", ")) "").data.length := by
  rw [objStr_foldl_cons, String.data_append, chunk_data]
  simp
  omega

/-- Dropping the final two characters of `s ++ [a, b]` leaves `s`. -/
theorem take_drop_pair (s : List Char) (a b : Char) :
    (s ++ [a, b]).take ((s ++ [a, b]).length - 2) = s := by
  have h : (s ++ [a, b]).length - 2 = s.length := by
    rw [List.length_append]; simp
  rw [h, List.take_left]

/-- Dropping the final two characters of `s ++ t` (with `t` at least two
characters long) drops them inside `t`. -/
theorem take_sub_two_append (s t : List Char) (h : 2 ≤ t.length) :
    (s ++ t).take ((s ++ t).length - 2) = s ++ t.take (t.length - 2) := by
  rw [List.length_append,
    show s.length + t.length - 2 = s.length + (t.length - 2) from by omega,
    List.take_append]

/-- `objectToString` computes exactly the specification's flattening of the
distinguished-name fields: `key=value` entries joined by `", "`. -/
theorem objectToString_eq_dnFlatten (fields : List (String × String)) :
    objectToString fields = dnFlatten fields := by
  induction fields with
  | nil => rfl
  | cons p rest ih =>
    cases rest with
    | nil =>
      show String.mk _ = _
      rw [objStr_foldl_cons]
      simp only [List.foldl_nil, String.append_empty, chunk_data]
      rw [take_drop_pair]
      apply String.ext
      show (p.1.data ++ ['=']) ++ p.2.data = (dnFlatten [p]).data
      simp [dnFlatten, String.data_append]
    | cons q rest2 =>
      show String.mk _ = _
      rw [objStr_foldl_cons, String.data_append,
        take_sub_two_append _ _ (objStr_foldl_cons_length q rest2)]
      have hmk : ∀ l1 l2 : List Char,
          String.mk (l1 ++ l2) = String.mk l1 ++ String.mk l2 := by
        intro l1 l2
        apply String.ext
        simp [String.data_append]
      rw [hmk]
      have ih2 : String.mk
          (((q :: rest2).foldl
            (fun s r => s ++ (r.1 ++ "=" ++ r.2 ++ ", ")) "").data.take
            (((q :: rest2).foldl
              (fun s r => s ++ (r.1 ++ "=" ++ r.2 ++ ", ")) "").data.length -
              2)) = dnFlatten (q :: rest2) := ih
      rw [ih2]
      show (p.1 ++ "=" ++ p.2 ++ ", ") ++ dnFlatten (q :: rest2) =
        p.1 ++ "=" ++ p.2 ++ ", " ++ dnFlatten (q :: rest2)
      rfl

/-- A SHA-1 digest is twenty bytes long. -/
theorem sha1_length (msg : List Nat) : (sha1 msg).length = 20 := by
  simp [sha1, wordBytes]

/-- Hex encoding yields two characters per byte. -/
theorem hexEncode_length (bytes : List Nat) :
    (hexEncode bytes).length = 2 * bytes.length := by
  show (bytes.map byteHex).flatten.length = 2 * bytes.length
  induction bytes with
  | nil => rfl
  | cons b rest ih =>
    simp only [List.map_cons, List.flatten_cons, List.length_append, ih,
      byteHex]
    simp
    omega

/-- Every hex digit value yields a hexadecimal digit character. -/
theorem hexChar_isHexDigit : ∀ n, n < 16 → isHexDigitChar (hexChar n) = true := by
  decide

/-- Every character of a hex encoding is a hexadecimal digit. -/
theorem hexEncode_chars (bytes : List Nat) :
    ∀ c ∈ (hexEncode bytes).data, isHexDigitChar c = true := by
  show ∀ c ∈ (bytes.map byteHex).flatten, isHexDigitChar c = true
  induction bytes with
  | nil => intro c hc; simp at hc
  | cons b rest ih =>
    intro c hc
    simp only [List.map_cons, List.flatten_cons, List.mem_append] at hc
    cases hc with
    | inl h =>
      simp only [byteHex, List.mem_cons, List.not_mem_nil, or_false] at h
      cases h with
      | inl h => rw [h]; exact hexChar_isHexDigit _ (Nat.mod_lt _ (by omega))
      | inr h => rw [h]; exact hexChar_isHexDigit _ (Nat.mod_lt _ (by omega))
    | inr h => exact ih c h

/-- C8: the certificate info extractor is a pure function of the raw peer
certificate whose `subjectName` and `issuerName` are the distinguished-name
fields flattened as `key=value, key=value` strings (the source's
`objectToString` accumulation provably equals that flattening), and whose
`thumbprint` is the hex-encoded SHA-1 digest of the raw certificate bytes:
forty characters, all hexadecimal digits. -/
theorem c8_certificate_info (cert : PeerCertificate) :
    (toCertificateInfo cert).subjectName = dnFlatten cert.subject ∧
    (toCertificateInfo cert).issuerName = dnFlatten cert.issuer ∧
    (toCertificateInfo cert).serialNumber = cert.serialNumber ∧
    (toCertificateInfo cert).thumbprint = hexEncode (sha1 cert.raw) ∧
    (toCertificateInfo cert).thumbprint.length = 40 ∧
    (∀ c ∈ (toCertificateInfo cert).thumbprint.data, isHexDigitChar c = true) := by
  refine ⟨objectToString_eq_dnFlatten _, objectToString_eq_dnFlatten _, rfl,
    rfl, ?_, hexEncode_chars _⟩
  show (hexEncode (sha1 cert.raw)).length = 40
  rw [hexEncode_length, sha1_length]

end DonutsHttp
